import Mathlib

/-!
Verification of the orbit-camera and selection subsystem of `src/Gript.js`.

The JavaScript source is event-driven glue over a scene-graph library.  We
shallowly embed the state the claims are about:

* the spherical camera state (`Radius`, `Theta`, `Phi`) and
  `UpdateCameraPosition` (over an abstract linear ordered field, with the
  trigonometric functions passed as parameters, instantiated at `Real`);
* the wheel-zoom handler (exact rational arithmetic: the source constants
  0.5, 0.1, 1.1 and 10 are modelled as the rationals they denote);
* the window/resize state (`WINDOW_WIDTH`, `WINDOW_HEIGHT` captured at
  startup, the `resize` listener, and the click handler's normalized
  device coordinates);
* the sprite selection manager (`Sprites` array, `SelectedSprite`,
  `TransformControls` attachment, outline decorations, mode cycling,
  Tab cycling, deletion) as an explicit state record with one transition
  function per event handler, translated line by line from the source.
-/

/-! ## Orbit camera (`src/Gript.js` lines 36-48) -/

/-- The mutable camera-related state: the orbit values `Radius`, `Theta`,
`Phi` and the camera's position and look-at target, over an arbitrary
linear ordered field (instantiated at `Real` in the theorems). -/
structure CamState (F : Type) where
  radius : F
  theta : F
  phi : F
  posx : F
  posy : F
  posz : F
  lookx : F
  looky : F
  lookz : F

/-- Line 43: `Math.max(0.01, Math.min(Math.PI - 0.01, Phi))`.
The literal `0.01` is the rational `1/100`; `pi` is a parameter
(instantiated with `Real.pi`). -/
def phiClamp {F : Type} [LinearOrderedField F] (pi phi : F) : F :=
  max (1 / 100) (min (pi - 1 / 100) phi)

/-- Lines 41-48, `UpdateCameraPosition`: recompute the camera position from
the spherical coordinates and look at the origin.  `sn` and `cs` are the
library's sine and cosine. -/
def UpdateCameraPosition {F : Type} [LinearOrderedField F]
    (pi : F) (sn cs : F → F) (s : CamState F) : CamState F :=
  { s with
    posx := s.radius * sn (phiClamp pi s.phi) * sn s.theta
    posy := s.radius * cs (phiClamp pi s.phi)
    posz := s.radius * sn (phiClamp pi s.phi) * cs s.theta
    lookx := 0
    looky := 0
    lookz := 0 }

/-! ## Wheel zoom (`src/Gript.js` lines 99-118) -/

/-- Lines 106-115, the body of the `wheel` listener after the
`IsTransformActive` guard: `DELTA = deltaY > 0 ? 1 : -1`,
`ZoomFactor = 0.5 * max(0.1, (Radius - 1) / 10)`,
`Radius += DELTA * ZoomFactor`, `Radius = max(1.1, Radius)`. -/
def zoomStep (r deltaY : ℚ) : ℚ :=
  let delta : ℚ := if deltaY > 0 then 1 else -1
  let zoomFactor : ℚ := (1 / 2) * max (1 / 10) ((r - 1) / 10)
  max (11 / 10) (r + delta * zoomFactor)

/-- Lines 99-118, the whole `wheel` listener: a no-op while
`IsTransformActive` holds, otherwise `zoomStep`. -/
def wheelStep (active : Bool) (r deltaY : ℚ) : ℚ :=
  if active then r else zoomStep r deltaY

/-! ## Window size and picking coordinates
(`src/Gript.js` lines 13-14, 156-165, 349-351) -/

/-- The window-related state: `WINDOW_WIDTH` / `WINDOW_HEIGHT` are the
`const` bindings captured once at script startup (lines 13-14); `aspect`
is `Camera.aspect`; `rendW`/`rendH` the renderer size. -/
structure ViewState where
  startW : ℚ
  startH : ℚ
  aspect : ℚ
  rendW : ℚ
  rendH : ℚ

/-- Lines 156-165, the `resize` listener: updates the camera aspect and
the renderer size from the new window dimensions; `WINDOW_WIDTH` and
`WINDOW_HEIGHT` are `const` and not reassigned. -/
def resizeStep (s : ViewState) (newW newH : ℚ) : ViewState :=
  { s with aspect := newW / newH, rendW := newW, rendH := newH }

/-- Lines 350-351 of the click listener: normalized device coordinates,
`Mouse.x = (clientX / WINDOW_WIDTH) * 2 - 1`,
`Mouse.y = -(clientY / WINDOW_HEIGHT) * 2 + 1`. -/
def mouseNDC (s : ViewState) (clientX clientY : ℚ) : ℚ × ℚ :=
  (clientX / s.startW * 2 - 1, -(clientY / s.startH) * 2 + 1)

/-! ## Sprite selection manager
(`src/Gript.js` lines 121-146, 173-178, 326-535) -/

/-- One entry of the `Sprites` array: its object identity `sid`, the
number of outline `LineSegments` children currently added below the
group, and whether `userData.selectionOutline` is set on it. -/
structure SpriteObj where
  sid : Nat
  outline : Nat
  hasRef : Bool
deriving DecidableEq

/-- Line 130: `TransformModes = ['translate', 'rotate', 'scale']`. -/
def TransformModes : List String := ["translate", "rotate", "scale"]

/-- The editor state the selection claims are about: the `Sprites` array,
the sprite-group identities currently children of `Scene`,
`SelectedSprite`, `TransformControls.object` (`attached`),
`CurrentModeIndex`, the mode the gizmo was last set to, and
`IsTransformActive`. -/
structure EState where
  sprites : List SpriteObj
  scene : List Nat
  selected : Option Nat
  attached : Option Nat
  modeIndex : Nat
  gizmoMode : String
  transformActive : Bool
deriving DecidableEq

/-- Mutate the sprite group with identity `p` in place (the JS handlers
mutate the object held in the `Sprites` array). -/
def updateSprite (l : List SpriteObj) (p : Nat) (f : SpriteObj → SpriteObj) :
    List SpriteObj :=
  l.map fun sp => if sp.sid = p then f sp else sp

/-- `Sprite.remove(outlineMesh)` alone (line 449): one fewer outline
child; the `userData` reference is not deleted there. -/
def removeOutlineChild (sp : SpriteObj) : SpriteObj :=
  { sp with outline := sp.outline - 1 }

/-- `Sprite.remove(outlineMesh)` followed by
`delete userData.selectionOutline` (lines 394-395 and 426-427). -/
def removeOutline (sp : SpriteObj) : SpriteObj :=
  { sp with outline := sp.outline - 1, hasRef := false }

/-- Outline construction plus `Sprite.add(OutlineMesh)` and
`userData.selectionOutline = OutlineMesh` (lines 404-413). -/
def addOutline (sp : SpriteObj) : SpriteObj :=
  { sp with outline := sp.outline + 1, hasRef := true }

/-- Whether `userData.selectionOutline` is set on the sprite with
identity `p` held in the array. -/
def hasRefOf (l : List SpriteObj) (p : Nat) : Bool :=
  match l.find? (fun sp => sp.sid == p) with
  | some sp => sp.hasRef
  | none => false

/-- Lines 389-414, `SelectSprite`: drop the previous selection's outline
if it has one, remember the new selection, attach the gizmo, re-apply the
remembered mode, and attach a fresh outline to the new selection. -/
def SelectSprite (s : EState) (t : Nat) : EState :=
  let l1 := match s.selected with
    | some prev =>
        if hasRefOf s.sprites prev then updateSprite s.sprites prev removeOutline
        else s.sprites
    | none => s.sprites
  { s with
    sprites := updateSprite l1 t addOutline
    selected := some t
    attached := some t
    gizmoMode := TransformModes.getD s.modeIndex "" }

/-- Lines 417-432, `DeselectCurrentSprite`: detach the gizmo, remove the
outline of the selected sprite if present, clear the selection; a no-op
when nothing is selected. -/
def DeselectCurrentSprite (s : EState) : EState :=
  match s.selected with
  | some prev =>
      let l1 :=
        if hasRefOf s.sprites prev then updateSprite s.sprites prev removeOutline
        else s.sprites
      { s with sprites := l1, selected := none, attached := none }
  | none => s

/-- Lines 443-463, `DeleteSelectedSprite`: remove the outline child if
present, remove the group from `Scene`, splice it out of `Sprites` at its
first index if found, detach the gizmo and clear the selection; a no-op
when nothing is selected. -/
def DeleteSelectedSprite (s : EState) : EState :=
  match s.selected with
  | some p =>
      let l1 :=
        if hasRefOf s.sprites p then updateSprite s.sprites p removeOutlineChild
        else s.sprites
      { s with
        sprites := l1.eraseP (fun sp => sp.sid == p)
        scene := s.scene.erase p
        selected := none
        attached := none }
  | none => s

/-- JS `Array.prototype.indexOf`: the first index of `p`, or `-1` when
`p` does not occur. -/
def jsIndexOf (l : List Nat) (p : Nat) : Int :=
  if p ∈ l then (l.indexOf p : Int) else -1

/-- The sprite identities in the `Sprites` array. -/
def Sids (s : EState) : List Nat := s.sprites.map SpriteObj.sid

/-- Lines 499-505: `NextIndex`, zero unless a sprite is selected, in
which case `(Sprites.indexOf(SelectedSprite) + 1) % Sprites.length`. -/
def tabNextIndex (s : EState) : Nat :=
  match s.selected with
  | some p => ((jsIndexOf (Sids s) p + 1) % (s.sprites.length : Int)).toNat
  | none => 0

/-- Lines 493-510, the Tab branch of the keydown listener: when the
`Sprites` array is nonempty, select `Sprites[NextIndex]`. -/
def tabStep (s : EState) : EState :=
  if 0 < s.sprites.length then
    match s.sprites.get? (tabNextIndex s) with
    | some sp => SelectSprite s sp.sid
    | none => s
  else s

/-- Lines 133-140 and 471-479: one registration of the Space branch of a
keydown listener (`if (Event.code === 'Space' && TransformControls.object)`). -/
def spaceListener (s : EState) : EState :=
  if s.attached.isSome then
    let ni := (s.modeIndex + 1) % TransformModes.length
    { s with modeIndex := ni, gizmoMode := TransformModes.getD ni "" }
  else s

/-- A single Space keypress: the source registers the Space-cycling
keydown listener twice (lines 133-146 and 471-511), and the browser runs
both registered listeners in registration order. -/
def spaceKeydown (s : EState) : EState := spaceListener (spaceListener s)

/-- An object in the scene graph as seen by the picking walk: its
identity and whether `userData.isSprite` is set on it. -/
structure SObj where
  oid : Nat
  isSprite : Bool
deriving DecidableEq

/-- Lines 360-377: for each intersection, walk from the hit object up its
parent chain to the direct child of `Scene` (the last element of the
recorded chain) and select the first whose top-level parent is marked
`userData.isSprite`. -/
def findSpriteToSelect : List (List SObj) → Option Nat
  | [] => none
  | chain :: rest =>
      match chain.getLast? with
      | some top => if top.isSprite then some top.oid else findSpriteToSelect rest
      | none => findSpriteToSelect rest

/-- Lines 344-386, the click listener: ignore the click while a gizmo
drag is active or for the camera button; otherwise select the first
sprite-group hit, and deselect when no hit belongs to a sprite group. -/
def clickStep (s : EState) (button : Nat) (hits : List (List SObj)) : EState :=
  if button = 2 ∨ s.transformActive then s
  else
    match findSpriteToSelect hits with
    | some t => SelectSprite s t
    | none => DeselectCurrentSprite s

/-- Total number of outline decorations attached below sprite groups. -/
def outlineTotal (s : EState) : Nat := (s.sprites.map SpriteObj.outline).sum

/-- The selection-manager invariant: the gizmo is attached exactly to the
selection, sprite identities are distinct and live in the scene, the
selection refers into the `Sprites` array, and a sprite carries exactly
one outline (and the `userData` reference) iff it is the selection. -/
def SelInv (s : EState) : Prop :=
  s.attached = s.selected ∧
  (Sids s).Nodup ∧
  s.scene.Nodup ∧
  (∀ sp ∈ s.sprites, sp.sid ∈ s.scene) ∧
  (∀ x ∈ s.selected.toList, x ∈ Sids s) ∧
  (∀ sp ∈ s.sprites,
      (s.selected = some sp.sid → sp.outline = 1 ∧ sp.hasRef = true) ∧
      (s.selected ≠ some sp.sid → sp.outline = 0 ∧ sp.hasRef = false))

instance (s : EState) : Decidable (SelInv s) := by
  unfold SelInv
  infer_instance

/-- A concrete editor state with one selected sprite in translate mode,
used to evaluate the transition functions. -/
def sGizmo : EState :=
  { sprites := [⟨0, 1, true⟩], scene := [0], selected := some 0,
    attached := some 0, modeIndex := 0, gizmoMode := "translate",
    transformActive := false }

/-- A concrete editor state with no sprites at all. -/
def sEmpty : EState :=
  { sprites := [], scene := [], selected := none, attached := none,
    modeIndex := 0, gizmoMode := "translate", transformActive := false }

/-- A concrete idle editor state with three sprites. -/
def sThree : EState :=
  { sprites := [⟨0, 0, false⟩, ⟨1, 0, false⟩, ⟨2, 0, false⟩],
    scene := [0, 1, 2], selected := none, attached := none,
    modeIndex := 0, gizmoMode := "translate", transformActive := false }

/-! ## Claim theorems for the camera, zoom and view model -/

/-- Claim C1, counterexample.  The claim reads the source with scroll-down
decreasing the radius.  In the source `DELTA = Event.deltaY > 0 ? 1 : -1`
and `Radius += DELTA * ZoomFactor`, and a scroll-down wheel event has
positive `deltaY` (the W3C convention), so at radius 10 a scroll-down
yields 10.45, not the 9.55 the claim demands; and at radius 1.1 a
scroll-up (negative `deltaY`) computes 1.05 which the clamp raises back
to 1.1, not the 1.15 the claim demands. -/
theorem c1_zoom_directions_counterexample :
    zoomStep 10 1 ≠ 10 - 45 / 100 ∧ zoomStep (11 / 10) (-1) ≠ 11 / 10 + 5 / 100 := by
  constructor <;> · simp only [zoomStep]; norm_num

/-- Claim C1 as amended: the magnitudes 0.45 and 0.05 are exactly as the
claim computes them, but the directions are the reverse of the claim's:
at radius 10 a scroll-UP (deltaY < 0) decreases the radius by 0.45 to
9.55 and a scroll-down increases it by 0.45 to 10.45; at radius 1.1 a
scroll-DOWN (deltaY > 0) increases the radius by 0.05 to 1.15, while a
scroll-up computes a 0.05 decrease that the 1.1 floor cancels. -/
theorem c1_zoom_magnitudes :
    zoomStep 10 (-1) = 10 - 45 / 100 ∧
    zoomStep 10 1 = 10 + 45 / 100 ∧
    zoomStep (11 / 10) 1 = 11 / 10 + 5 / 100 ∧
    zoomStep (11 / 10) (-1) = 11 / 10 := by
  refine ⟨?_, ?_, ?_, ?_⟩ <;> · simp only [zoomStep]; norm_num

/-- Claim C3: `UpdateCameraPosition` sets the position to exactly
(r·sin(clamped φ)·sin θ, r·cos(clamped φ), r·sin(clamped φ)·cos θ),
points the camera at the origin, is idempotent, and is a pure function
of (radius, theta, phi): overwriting the non-input fields of the state
does not change its output. -/
theorem c3_update_camera_pure (sn cs : ℝ → ℝ) (s : CamState ℝ)
    (a b c d e f : ℝ) :
    (UpdateCameraPosition Real.pi sn cs s).posx
        = s.radius * sn (phiClamp Real.pi s.phi) * sn s.theta ∧
    (UpdateCameraPosition Real.pi sn cs s).posy
        = s.radius * cs (phiClamp Real.pi s.phi) ∧
    (UpdateCameraPosition Real.pi sn cs s).posz
        = s.radius * sn (phiClamp Real.pi s.phi) * cs s.theta ∧
    (UpdateCameraPosition Real.pi sn cs s).lookx = 0 ∧
    (UpdateCameraPosition Real.pi sn cs s).looky = 0 ∧
    (UpdateCameraPosition Real.pi sn cs s).lookz = 0 ∧
    UpdateCameraPosition Real.pi sn cs (UpdateCameraPosition Real.pi sn cs s)
        = UpdateCameraPosition Real.pi sn cs s ∧
    UpdateCameraPosition Real.pi sn cs
        { s with posx := a, posy := b, posz := c, lookx := d, looky := e, lookz := f }
        = UpdateCameraPosition Real.pi sn cs s := by
  refine ⟨rfl, rfl, rfl, rfl, rfl, rfl, rfl, rfl⟩

/-- Claim C4: for every value of the polar angle state, the clamped polar
value used inside the position computation satisfies
0.01 ≤ p ≤ π − 0.01. -/
theorem c4_phi_clamped (phi : ℝ) :
    1 / 100 ≤ phiClamp Real.pi phi ∧ phiClamp Real.pi phi ≤ Real.pi - 1 / 100 := by
  have hpi : (3 : ℝ) < Real.pi := Real.pi_gt_three
  constructor
  · exact le_max_left _ _
  · apply max_le
    · linarith
    · exact min_le_left _ _

/-- Claim C5: starting from the initial radius 10, after any sequence of
wheel events (each either suppressed by an active transform drag or
applying the zoom update), the radius is at least 1.1. -/
theorem c5_radius_floor (events : List (Bool × ℚ)) :
    11 / 10 ≤ events.foldl (fun r e => wheelStep e.1 r e.2) 10 := by
  have key : ∀ (l : List (Bool × ℚ)) (r : ℚ), 11 / 10 ≤ r →
      11 / 10 ≤ l.foldl (fun r e => wheelStep e.1 r e.2) r := by
    intro l
    induction l with
    | nil => intro r hr; simpa using hr
    | cons e tl ih =>
        intro r hr
        apply ih
        obtain ⟨b, d⟩ := e
        cases b with
        | true => simpa [wheelStep] using hr
        | false =>
            simp only [wheelStep, Bool.false_eq_true, if_false, zoomStep]
            exact le_max_left _ _
  exact key events 10 (by norm_num)

/-- Claim C10: the normalized device coordinates of every click divide by
the startup window dimensions; any sequence of resize events updates the
camera aspect and the renderer size but leaves those startup dimensions,
and hence the picking coordinates, unchanged. -/
theorem c10_resize_stale_pick (s : ViewState) (resizes : List (ℚ × ℚ))
    (x y w h : ℚ) :
    (resizes.foldl (fun t e => resizeStep t e.1 e.2) s).startW = s.startW ∧
    (resizes.foldl (fun t e => resizeStep t e.1 e.2) s).startH = s.startH ∧
    mouseNDC (resizes.foldl (fun t e => resizeStep t e.1 e.2) s) x y
        = mouseNDC s x y ∧
    mouseNDC s x y = (x / s.startW * 2 - 1, -(y / s.startH) * 2 + 1) ∧
    (resizeStep s w h).aspect = w / h ∧
    (resizeStep s w h).rendW = w ∧
    (resizeStep s w h).rendH = h := by
  have key : ∀ (l : List (ℚ × ℚ)) (t : ViewState),
      (l.foldl (fun t e => resizeStep t e.1 e.2) t).startW = t.startW ∧
      (l.foldl (fun t e => resizeStep t e.1 e.2) t).startH = t.startH := by
    intro l
    induction l with
    | nil => intro t; exact ⟨rfl, rfl⟩
    | cons e tl ih =>
        intro t
        simpa [resizeStep] using ih (resizeStep t e.1 e.2)
  obtain ⟨hw, hh⟩ := key resizes s
  exact ⟨hw, hh, by simp [mouseNDC, hw, hh], rfl, rfl, rfl, rfl⟩

/-! ## Helper lemmas about the selection manager -/

theorem updateSprite_map_sid (l : List SpriteObj) (p : Nat)
    (f : SpriteObj → SpriteObj) (hf : ∀ sp, (f sp).sid = sp.sid) :
    (updateSprite l p f).map SpriteObj.sid = l.map SpriteObj.sid := by
  unfold updateSprite
  rw [List.map_map]
  apply List.map_congr_left
  intro a _
  by_cases h : a.sid = p <;> simp [h, hf]

theorem SelectSprite_selected (s : EState) (t : Nat) :
    (SelectSprite s t).selected = some t := rfl

theorem SelectSprite_attached (s : EState) (t : Nat) :
    (SelectSprite s t).attached = some t := rfl

theorem SelectSprite_scene (s : EState) (t : Nat) :
    (SelectSprite s t).scene = s.scene := rfl

theorem SelectSprite_modeIndex (s : EState) (t : Nat) :
    (SelectSprite s t).modeIndex = s.modeIndex := rfl

theorem hasRefOf_true_of_inv (s : EState) (prev : Nat) (h : SelInv s)
    (hsel : s.selected = some prev) : hasRefOf s.sprites prev = true := by
  have hprev : prev ∈ Sids s := h.2.2.2.2.1 prev (by simp [hsel])
  unfold hasRefOf
  cases hfind : s.sprites.find? (fun sp => sp.sid == prev) with
  | none =>
      exfalso
      obtain ⟨sp, hsp, hspid⟩ := List.mem_map.1 hprev
      have := List.find?_eq_none.1 hfind sp hsp
      simp [hspid] at this
  | some sp =>
      have hmem := List.mem_of_find?_eq_some hfind
      have hpid : sp.sid = prev := by simpa using List.find?_some hfind
      exact ((h.2.2.2.2.2 sp hmem).1 (by rw [hsel, hpid])).2

theorem clear_after_remove (s : EState) (prev : Nat) (h : SelInv s)
    (hsel : s.selected = some prev) :
    ∀ sp ∈ updateSprite s.sprites prev removeOutline,
      sp.outline = 0 ∧ sp.hasRef = false := by
  intro sp hsp
  unfold updateSprite at hsp
  obtain ⟨a, ha, rfl⟩ := List.mem_map.1 hsp
  by_cases hid : a.sid = prev
  · obtain ⟨h1, h2⟩ := (h.2.2.2.2.2 a ha).1 (by rw [hsel, hid])
    simp [hid, removeOutline, h1, h2]
  · have hne : s.selected ≠ some a.sid := by
      rw [hsel]
      intro hc
      exact hid (Option.some.inj hc).symm
    obtain ⟨h1, h2⟩ := (h.2.2.2.2.2 a ha).2 hne
    simp [hid, h1, h2]

theorem selinv_select_core (s : EState) (t : Nat) (l : List SpriteObj)
    (hsid : l.map SpriteObj.sid = Sids s)
    (hclear : ∀ sp ∈ l, sp.outline = 0 ∧ sp.hasRef = false)
    (ht : t ∈ Sids s) (hnd : (Sids s).Nodup) (hscnd : s.scene.Nodup)
    (hscene : ∀ x ∈ Sids s, x ∈ s.scene) :
    SelInv { s with
             sprites := updateSprite l t addOutline,
             selected := some t, attached := some t,
             gizmoMode := TransformModes.getD s.modeIndex "" } := by
  have husid : (updateSprite l t addOutline).map SpriteObj.sid = Sids s := by
    rw [updateSprite_map_sid l t addOutline (fun sp => rfl), hsid]
  unfold SelInv
  refine ⟨rfl, ?_, hscnd, ?_, ?_, ?_⟩
  · have heq : Sids { s with
        sprites := updateSprite l t addOutline,
        selected := some t, attached := some t,
        gizmoMode := TransformModes.getD s.modeIndex "" } = Sids s := husid
    rw [heq]
    exact hnd
  · intro sp hsp
    have hmem : sp.sid ∈ Sids s := by
      rw [← husid]
      exact List.mem_map_of_mem SpriteObj.sid hsp
    exact hscene _ hmem
  · intro x hx
    have hxt : x = t := by simpa using hx
    have heq : Sids { s with
        sprites := updateSprite l t addOutline,
        selected := some t, attached := some t,
        gizmoMode := TransformModes.getD s.modeIndex "" } = Sids s := husid
    rw [heq, hxt]
    exact ht
  · intro sp hsp
    have hsp' : sp ∈ updateSprite l t addOutline := hsp
    unfold updateSprite at hsp'
    obtain ⟨a, ha, rfl⟩ := List.mem_map.1 hsp'
    by_cases hid : a.sid = t
    · constructor
      · intro _
        have h0 := (hclear a ha).1
        simp [hid, addOutline, h0]
      · intro hne
        exfalso
        apply hne
        simp [hid, addOutline]
    · constructor
      · intro heq
        have : t = a.sid := by
          have h1 : (if a.sid = t then addOutline a else a).sid = a.sid := by
            simp [hid]
          rw [h1] at heq
          exact Option.some.inj heq
        exact (hid this.symm).elim
      · intro _
        have h0 := hclear a ha
        simp [hid, h0.1, h0.2]

theorem selinv_SelectSprite (s : EState) (t : Nat) (ht : t ∈ Sids s)
    (h : SelInv s) : SelInv (SelectSprite s t) := by
  have hscene : ∀ x ∈ Sids s, x ∈ s.scene := by
    intro x hx
    obtain ⟨a, ha, rfl⟩ := List.mem_map.1 hx
    exact h.2.2.2.1 a ha
  cases hsel : s.selected with
  | none =>
      have hclear : ∀ sp ∈ s.sprites, sp.outline = 0 ∧ sp.hasRef = false := by
        intro sp hsp
        exact (h.2.2.2.2.2 sp hsp).2 (by rw [hsel]; simp)
      have hcore := selinv_select_core s t s.sprites rfl hclear ht h.2.1 h.2.2.1 hscene
      simpa only [SelectSprite, hsel] using hcore
  | some prev =>
      have href := hasRefOf_true_of_inv s prev h hsel
      have hclear := clear_after_remove s prev h hsel
      have hsid : (updateSprite s.sprites prev removeOutline).map SpriteObj.sid
          = Sids s := updateSprite_map_sid _ _ _ (fun sp => rfl)
      have hcore := selinv_select_core s t _ hsid hclear ht h.2.1 h.2.2.1 hscene
      simpa only [SelectSprite, hsel, href, if_true] using hcore

theorem Sids_SelectSprite (s : EState) (t : Nat) :
    Sids (SelectSprite s t) = Sids s := by
  cases hsel : s.selected with
  | none =>
      simp only [Sids, SelectSprite, hsel]
      exact updateSprite_map_sid _ _ addOutline (fun sp => rfl)
  | some prev =>
      by_cases href : hasRefOf s.sprites prev = true
      · simp only [Sids, SelectSprite, hsel, href, if_true]
        rw [updateSprite_map_sid _ _ addOutline (fun sp => rfl),
          updateSprite_map_sid _ _ removeOutline (fun sp => rfl)]
      · simp only [Sids, SelectSprite, hsel, if_neg href]
        exact updateSprite_map_sid _ _ addOutline (fun sp => rfl)

theorem deselect_selected_none (s : EState) :
    (DeselectCurrentSprite s).selected = none := by
  unfold DeselectCurrentSprite
  cases hsel : s.selected with
  | none => exact hsel
  | some prev => rfl

theorem selinv_DeselectCurrentSprite (s : EState) (h : SelInv s) :
    SelInv (DeselectCurrentSprite s) := by
  cases hsel : s.selected with
  | none =>
      have heq : DeselectCurrentSprite s = s := by
        simp [DeselectCurrentSprite, hsel]
      rw [heq]
      exact h
  | some prev =>
      have href := hasRefOf_true_of_inv s prev h hsel
      have hclear := clear_after_remove s prev h hsel
      have hred : DeselectCurrentSprite s = { s with
          sprites := updateSprite s.sprites prev removeOutline,
          selected := none, attached := none } := by
        simp [DeselectCurrentSprite, hsel, href]
      rw [hred]
      refine ⟨rfl, ?_, h.2.2.1, ?_, ?_, ?_⟩
      · show ((updateSprite s.sprites prev removeOutline).map SpriteObj.sid).Nodup
        rw [updateSprite_map_sid _ _ removeOutline (fun sp => rfl)]
        exact h.2.1
      · intro sp hsp
        unfold updateSprite at hsp
        obtain ⟨a, ha, rfl⟩ := List.mem_map.1 hsp
        have hsid : (if a.sid = prev then removeOutline a else a).sid = a.sid := by
          by_cases hid : a.sid = prev <;> simp [hid, removeOutline]
        rw [hsid]
        exact h.2.2.2.1 a ha
      · intro x hx
        simp at hx
      · intro sp hsp
        constructor
        · intro heq
          exact absurd heq (by simp)
        · intro _
          exact hclear sp hsp

theorem map_sid_eraseP (l : List SpriteObj) (p : Nat) :
    (l.eraseP (fun sp => sp.sid == p)).map SpriteObj.sid
      = (l.map SpriteObj.sid).erase p := by
  induction l with
  | nil => rfl
  | cons a tl ih =>
      by_cases h : a.sid = p
      · simp [List.eraseP_cons, List.erase_cons, h]
      · simp [List.eraseP_cons, List.erase_cons, h, ih]

theorem selinv_DeleteSelectedSprite (s : EState) (h : SelInv s) :
    SelInv (DeleteSelectedSprite s) := by
  cases hsel : s.selected with
  | none =>
      have heq : DeleteSelectedSprite s = s := by
        simp [DeleteSelectedSprite, hsel]
      rw [heq]
      exact h
  | some p =>
      have href := hasRefOf_true_of_inv s p h hsel
      have hred : DeleteSelectedSprite s = { s with
          sprites := (updateSprite s.sprites p removeOutlineChild).eraseP
            (fun sp => sp.sid == p),
          scene := s.scene.erase p,
          selected := none, attached := none } := by
        simp [DeleteSelectedSprite, hsel, href]
      rw [hred]
      have hsidE : ((updateSprite s.sprites p removeOutlineChild).eraseP
          (fun sp => sp.sid == p)).map SpriteObj.sid = (Sids s).erase p := by
        rw [map_sid_eraseP, updateSprite_map_sid _ _ removeOutlineChild (fun sp => rfl)]
        rfl
      refine ⟨rfl, ?_, ?_, ?_, ?_, ?_⟩
      · show (((updateSprite s.sprites p removeOutlineChild).eraseP
          (fun sp => sp.sid == p)).map SpriteObj.sid).Nodup
        rw [hsidE]
        exact h.2.1.erase p
      · exact h.2.2.1.erase p
      · intro sp hsp
        have hmem : sp.sid ∈ (Sids s).erase p := by
          rw [← hsidE]
          exact List.mem_map_of_mem SpriteObj.sid hsp
        obtain ⟨hne, hmem'⟩ := (h.2.1.mem_erase_iff).1 hmem
        have hsc : sp.sid ∈ s.scene := by
          obtain ⟨a, ha, haid⟩ := List.mem_map.1 hmem'
          rw [← haid]
          exact h.2.2.2.1 a ha
        exact (h.2.2.1.mem_erase_iff).2 ⟨hne, hsc⟩
      · intro x hx
        simp at hx
      · intro sp hsp
        constructor
        · intro heq
          exact absurd heq (by simp)
        · intro _
          have hsub : sp ∈ updateSprite s.sprites p removeOutlineChild :=
            (List.eraseP_sublist _).subset hsp
          have hne : sp.sid ≠ p := by
            have hmem : sp.sid ∈ (Sids s).erase p := by
              rw [← hsidE]
              exact List.mem_map_of_mem SpriteObj.sid hsp
            exact ((h.2.1.mem_erase_iff).1 hmem).1
          unfold updateSprite at hsub
          obtain ⟨a, ha, heqa⟩ := List.mem_map.1 hsub
          by_cases hid : a.sid = p
          · rw [← heqa] at hne
            simp [hid, removeOutlineChild] at hne
          · have hclear := (h.2.2.2.2.2 a ha).2 (by
              rw [hsel]
              intro hc
              exact hid (Option.some.inj hc).symm)
            rw [← heqa]
            simp [hid, hclear.1, hclear.2]

theorem selinv_tabStep (s : EState) (h : SelInv s) : SelInv (tabStep s) := by
  unfold tabStep
  by_cases hlen : 0 < s.sprites.length
  · rw [if_pos hlen]
    cases hget : s.sprites.get? (tabNextIndex s) with
    | none => exact h
    | some sp =>
        exact selinv_SelectSprite s sp.sid
          (List.mem_map_of_mem SpriteObj.sid (List.get?_mem hget)) h
  · rw [if_neg hlen]
    exact h

theorem tab_selected_cases (s : EState) :
    (tabStep s).selected = s.selected ∨
    ∃ sp ∈ s.sprites, (tabStep s).selected = some sp.sid := by
  unfold tabStep
  by_cases hlen : 0 < s.sprites.length
  · rw [if_pos hlen]
    cases hget : s.sprites.get? (tabNextIndex s) with
    | none => left; rfl
    | some sp => right; exact ⟨sp, List.get?_mem hget, rfl⟩
  · rw [if_neg hlen]
    left
    rfl

theorem sum_outline_eq_one : ∀ (l : List SpriteObj) (x : Nat),
    (l.map SpriteObj.sid).Nodup → x ∈ l.map SpriteObj.sid →
    (∀ sp ∈ l, (sp.sid = x → sp.outline = 1) ∧ (sp.sid ≠ x → sp.outline = 0)) →
    (l.map SpriteObj.outline).sum = 1 := by
  intro l
  induction l with
  | nil =>
      intro x _ hx _
      simp at hx
  | cons a tl ih =>
      intro x hnd hx hout
      simp only [List.map_cons, List.nodup_cons] at hnd
      obtain ⟨hna, hndtl⟩ := hnd
      simp only [List.map_cons] at hx
      by_cases ha : a.sid = x
      · have h1 : a.outline = 1 := (hout a (List.mem_cons_self a tl)).1 ha
        have hzero : (tl.map SpriteObj.outline).sum = 0 := by
          apply List.sum_eq_zero
          intro y hy
          obtain ⟨sp, hsp, rfl⟩ := List.mem_map.1 hy
          apply (hout sp (List.mem_cons_of_mem a hsp)).2
          intro hc
          apply hna
          rw [ha, ← hc]
          exact List.mem_map_of_mem SpriteObj.sid hsp
        simp [h1, hzero]
      · have h0 : a.outline = 0 := (hout a (List.mem_cons_self a tl)).2 ha
        have hx' : x ∈ tl.map SpriteObj.sid := by
          rcases List.mem_cons.1 hx with hc | hc
          · exact absurd hc.symm ha
          · exact hc
        have hrec := ih x hndtl hx' (fun sp hsp => hout sp (List.mem_cons_of_mem a hsp))
        simp [h0, hrec]

theorem findSpriteToSelect_eq_none : ∀ (hits : List (List SObj)),
    (∀ chain ∈ hits, ∀ top, chain.getLast? = some top → top.isSprite = false) →
    findSpriteToSelect hits = none := by
  intro hits
  induction hits with
  | nil =>
      intro _
      rfl
  | cons chain rest ih =>
      intro hmiss
      have hrest := ih (fun c hc t ht => hmiss c (List.mem_cons_of_mem _ hc) t ht)
      unfold findSpriteToSelect
      cases hc : chain.getLast? with
      | none => exact hrest
      | some top =>
          have hfalse : top.isSprite = false :=
            hmiss chain (List.mem_cons_self _ _) top hc
          simp [hfalse, hrest]

/-! ## Claim theorems for the selection manager -/

/-- Claim C2, evaluated at the failing input.  The source registers the
Space mode-cycling keydown listener twice (lines 133 and 471), so one
Space keypress with a selected object runs both registrations and the
mode index advances from 0 (translate) to 2 (scale), not to 1 (rotate)
as a single Translate → Rotate step would give. -/
theorem c2_space_double_advance :
    (spaceKeydown sGizmo).modeIndex = 2 ∧
    (spaceKeydown sGizmo).gizmoMode = "scale" ∧
    TransformModes.getD 1 "" = "rotate" := by
  refine ⟨rfl, rfl, rfl⟩

/-- Claim C6: from any state satisfying the selection invariant, each
selection-manager operation (explicit select of a collection member,
deselect, delete, Tab-cycle) preserves it: at most one sprite is
outlined, the outline sits exactly on the selected sprite, and the gizmo
is attached iff a selection exists.  Selecting object `a` and then
object `b` leaves exactly one outline in the scene, on `b`. -/
theorem c6_selection_invariants (s : EState) (h : SelInv s) :
    (∀ t ∈ Sids s, SelInv (SelectSprite s t)) ∧
    SelInv (DeselectCurrentSprite s) ∧
    SelInv (DeleteSelectedSprite s) ∧
    SelInv (tabStep s) ∧
    (∀ a ∈ Sids s, ∀ b ∈ Sids s,
        outlineTotal (SelectSprite (SelectSprite s a) b) = 1 ∧
        (SelectSprite (SelectSprite s a) b).selected = some b) := by
  refine ⟨fun t ht => selinv_SelectSprite s t ht h,
    selinv_DeselectCurrentSprite s h,
    selinv_DeleteSelectedSprite s h,
    selinv_tabStep s h, ?_⟩
  intro a ha b hb
  have h1 : SelInv (SelectSprite s a) := selinv_SelectSprite s a ha h
  have hb1 : b ∈ Sids (SelectSprite s a) := by
    rw [Sids_SelectSprite]
    exact hb
  have h2 : SelInv (SelectSprite (SelectSprite s a) b) :=
    selinv_SelectSprite _ b hb1 h1
  refine ⟨?_, rfl⟩
  have hsel2 : (SelectSprite (SelectSprite s a) b).selected = some b := rfl
  have hbmem : b ∈ Sids (SelectSprite (SelectSprite s a) b) := by
    rw [Sids_SelectSprite, Sids_SelectSprite]
    exact hb
  unfold outlineTotal
  apply sum_outline_eq_one _ b h2.2.1 hbmem
  intro sp hsp
  constructor
  · intro hspb
    exact ((h2.2.2.2.2.2 sp hsp).1 (by rw [hsel2, hspb])).1
  · intro hspb
    refine ((h2.2.2.2.2.2 sp hsp).2 ?_).1
    rw [hsel2]
    intro hc
    exact hspb (Option.some.inj hc).symm

/-- Claim C8: deleting while Idle is a silent no-op; deleting the
selected sprite clears the selection and the gizmo, removes the sprite
from both the scene and the `Sprites` collection, leaves no outline on
any remaining sprite, preserves the invariant, and a subsequent
Tab-cycle can never select the deleted sprite again. -/
theorem c8_delete_selected (s : EState) (h : SelInv s) :
    (s.selected = none → DeleteSelectedSprite s = s) ∧
    (∀ p, s.selected = some p →
        (DeleteSelectedSprite s).selected = none ∧
        (DeleteSelectedSprite s).attached = none ∧
        p ∉ Sids (DeleteSelectedSprite s) ∧
        p ∉ (DeleteSelectedSprite s).scene ∧
        (∀ sp ∈ (DeleteSelectedSprite s).sprites,
            sp.outline = 0 ∧ sp.hasRef = false) ∧
        SelInv (DeleteSelectedSprite s) ∧
        (tabStep (DeleteSelectedSprite s)).selected ≠ some p) := by
  constructor
  · intro hsel
    simp [DeleteSelectedSprite, hsel]
  · intro p hsel
    have href := hasRefOf_true_of_inv s p h hsel
    have hinv := selinv_DeleteSelectedSprite s h
    have hred : DeleteSelectedSprite s = { s with
        sprites := (updateSprite s.sprites p removeOutlineChild).eraseP
          (fun sp => sp.sid == p),
        scene := s.scene.erase p,
        selected := none, attached := none } := by
      simp [DeleteSelectedSprite, hsel, href]
    have hsidE : Sids (DeleteSelectedSprite s) = (Sids s).erase p := by
      rw [hred]
      show ((updateSprite s.sprites p removeOutlineChild).eraseP
          (fun sp => sp.sid == p)).map SpriteObj.sid = (Sids s).erase p
      rw [map_sid_eraseP, updateSprite_map_sid _ _ removeOutlineChild (fun sp => rfl)]
      rfl
    have hpnot : p ∉ Sids (DeleteSelectedSprite s) := by
      rw [hsidE]
      intro hc
      exact ((h.2.1.mem_erase_iff).1 hc).1 rfl
    have hseln : (DeleteSelectedSprite s).selected = none := by rw [hred]
    refine ⟨hseln, by rw [hred], hpnot, ?_, ?_, hinv, ?_⟩
    · rw [hred]
      show p ∉ s.scene.erase p
      intro hc
      exact ((h.2.2.1.mem_erase_iff).1 hc).1 rfl
    · intro sp hsp
      exact (hinv.2.2.2.2.2 sp hsp).2 (by rw [hseln]; simp)
    · rcases tab_selected_cases (DeleteSelectedSprite s) with hc | ⟨sp, hsp, hc⟩
      · rw [hc, hseln]
        simp
      · rw [hc]
        intro he
        have hspp : sp.sid = p := Option.some.inj he
        apply hpnot
        rw [← hspp]
        exact List.mem_map_of_mem SpriteObj.sid hsp

/-- Claim C9: a primary-button click whose ray hits nothing that belongs
to a placed sprite group (every intersection's top-level parent lacks
the sprite mark) deselects: from any state, the click handler runs
`DeselectCurrentSprite` and the resulting selection is empty.  The
handler is a total function, so no exception is possible. -/
theorem c9_click_miss (s : EState) (hits : List (List SObj))
    (hact : s.transformActive = false)
    (hmiss : ∀ chain ∈ hits, ∀ top, chain.getLast? = some top → top.isSprite = false) :
    clickStep s 0 hits = DeselectCurrentSprite s ∧
    (clickStep s 0 hits).selected = none := by
  have hfind := findSpriteToSelect_eq_none hits hmiss
  have hstep : clickStep s 0 hits = DeselectCurrentSprite s := by
    unfold clickStep
    rw [if_neg]
    · rw [hfind]
    · intro hcond
      rcases hcond with hc | hc
      · exact absurd hc (by norm_num)
      · rw [hact] at hc
        exact Bool.false_ne_true hc
  refine ⟨hstep, ?_⟩
  rw [hstep]
  exact deselect_selected_none s

/-- Witness for C6 at a concrete three-sprite state. -/
theorem c6_selection_invariants_witness :
    SelInv (SelectSprite sThree 1) ∧
    outlineTotal (SelectSprite (SelectSprite sThree 0) 2) = 1 := by
  refine ⟨(c6_selection_invariants sThree (by decide)).1 1 (by decide), ?_⟩
  exact ((c6_selection_invariants sThree (by decide)).2.2.2.2 0 (by decide) 2 (by decide)).1

/-- Witness for C8 at a concrete selected state. -/
theorem c8_delete_selected_witness :
    (DeleteSelectedSprite sGizmo).selected = none ∧
    0 ∉ Sids (DeleteSelectedSprite sGizmo) := by
  have hmain := (c8_delete_selected sGizmo (by decide)).2 0 rfl
  exact ⟨hmain.1, hmain.2.2.1⟩

/-- Witness for C9 at a concrete selected state and an empty hit list. -/
theorem c9_click_miss_witness :
    clickStep sGizmo 0 [] = DeselectCurrentSprite sGizmo ∧
    (clickStep sGizmo 0 []).selected = none :=
  c9_click_miss sGizmo [] rfl (by simp)

/-! ## Tab cycling -/

theorem jsIndexOf_mem (l : List Nat) (p : Nat) (h : p ∈ l) :
    jsIndexOf l p = (l.indexOf p : Int) := by
  simp [jsIndexOf, h]

theorem toNat_mod_cast_succ (i n : Nat) :
    (((i : Int) + 1) % (n : Int)).toNat = (i + 1) % n := by
  rw [show ((i : Int) + 1) = ((i + 1 : Nat) : Int) by push_cast; ring]
  rw [← Int.natCast_mod, Int.toNat_natCast]

theorem tabNextIndex_selected (s : EState) (p : Nat) (hsel : s.selected = some p)
    (hp : p ∈ Sids s) :
    tabNextIndex s = ((Sids s).indexOf p + 1) % s.sprites.length := by
  simp only [tabNextIndex, hsel]
  rw [jsIndexOf_mem _ _ hp]
  exact toNat_mod_cast_succ _ _

theorem tabStep_select (s : EState) (hn : 0 < s.sprites.length)
    (hidx : tabNextIndex s < s.sprites.length) :
    (tabStep s).selected = (Sids s).get? (tabNextIndex s) ∧
    Sids (tabStep s) = Sids s := by
  have hget := List.get?_eq_get (l := s.sprites) hidx
  constructor
  · unfold tabStep
    rw [if_pos hn, hget]
    show (SelectSprite s (s.sprites.get ⟨tabNextIndex s, hidx⟩).sid).selected = _
    rw [SelectSprite_selected]
    rw [show Sids s = s.sprites.map SpriteObj.sid from rfl, List.get?_map, hget]
    rfl
  · have hred : tabStep s = SelectSprite s (s.sprites.get ⟨tabNextIndex s, hidx⟩).sid := by
      unfold tabStep
      rw [if_pos hn, hget]
    rw [hred, Sids_SelectSprite]

theorem tab_advances (s : EState) (h : SelInv s) (j : Nat)
    (hj : j < s.sprites.length) (hsel : s.selected = (Sids s).get? j) :
    SelInv (tabStep s) ∧ Sids (tabStep s) = Sids s ∧
    (tabStep s).sprites.length = s.sprites.length ∧
    (tabStep s).selected = (Sids s).get? ((j + 1) % s.sprites.length) := by
  have hlenmap : (Sids s).length = s.sprites.length := List.length_map _ _
  have hj' : j < (Sids s).length := by rw [hlenmap]; exact hj
  have hpget : (Sids s).get? j = some ((Sids s).get ⟨j, hj'⟩) := List.get?_eq_get hj'
  have hselp : s.selected = some ((Sids s).get ⟨j, hj'⟩) := by rw [hsel, hpget]
  have hpmem : (Sids s).get ⟨j, hj'⟩ ∈ Sids s := List.get_mem _ _ _
  have hidxp : (Sids s).indexOf ((Sids s).get ⟨j, hj'⟩) = j :=
    List.get_indexOf h.2.1 ⟨j, hj'⟩
  have hnext : tabNextIndex s = (j + 1) % s.sprites.length := by
    rw [tabNextIndex_selected s _ hselp hpmem, hidxp]
  have hn : 0 < s.sprites.length := Nat.lt_of_le_of_lt (Nat.zero_le j) hj
  have hidxlt : tabNextIndex s < s.sprites.length := by
    rw [hnext]
    exact Nat.mod_lt _ hn
  obtain ⟨hsel', hsids⟩ := tabStep_select s hn hidxlt
  refine ⟨selinv_tabStep s h, hsids, ?_, ?_⟩
  · have hcg := congrArg List.length hsids
    simpa [Sids] using hcg
  · rw [hsel', hnext]

theorem tab_iterate : ∀ (k : Nat) (s : EState), SelInv s → ∀ j, j < s.sprites.length →
    s.selected = (Sids s).get? j →
    SelInv (tabStep^[k] s) ∧ Sids (tabStep^[k] s) = Sids s ∧
    (tabStep^[k] s).sprites.length = s.sprites.length ∧
    (tabStep^[k] s).selected = (Sids s).get? ((j + k) % s.sprites.length) := by
  intro k
  induction k with
  | zero =>
      intro s hs j hj hsel
      refine ⟨hs, rfl, rfl, ?_⟩
      simp only [Function.iterate_zero, id_eq]
      rw [Nat.add_zero, Nat.mod_eq_of_lt hj]
      exact hsel
  | succ k ih =>
      intro s hs j hj hsel
      obtain ⟨h1, h2, h3, h4⟩ := tab_advances s hs j hj hsel
      have hn : 0 < s.sprites.length := Nat.lt_of_le_of_lt (Nat.zero_le j) hj
      have hj1 : (j + 1) % s.sprites.length < s.sprites.length := Nat.mod_lt _ hn
      have hj1' : (j + 1) % s.sprites.length < (tabStep s).sprites.length := by
        rw [h3]
        exact hj1
      have hsel1 : (tabStep s).selected
          = (Sids (tabStep s)).get? ((j + 1) % s.sprites.length) := by
        rw [h2, h4]
      obtain ⟨g1, g2, g3, g4⟩ := ih (tabStep s) h1 ((j + 1) % s.sprites.length) hj1' hsel1
      rw [Function.iterate_succ_apply]
      refine ⟨g1, by rw [g2, h2], by rw [g3, h3], ?_⟩
      rw [g4, h2, h3, Nat.mod_add_mod,
        show j + (k + 1) = j + 1 + k from by omega]

/-- Claim C7: the Tab selection cycle.  On an empty collection Tab is a
no-op; from Idle it selects index 0; from a selected sprite at index `i`
it selects index `(i+1) mod count`; and starting from Idle, the first
Tab selects sprite 0 and `count` further Tabs come back to sprite 0
(cycle length equals the collection size). -/
theorem c7_tab_cycle :
    (∀ s : EState, s.sprites = [] → tabStep s = s) ∧
    (∀ s : EState, s.selected = none → 0 < s.sprites.length →
        (tabStep s).selected = (Sids s).get? 0) ∧
    (∀ (s : EState) (p : Nat), SelInv s → s.selected = some p →
        (tabStep s).selected
          = (Sids s).get? (((Sids s).indexOf p + 1) % s.sprites.length)) ∧
    (∀ s : EState, SelInv s → s.selected = none → 0 < s.sprites.length →
        (tabStep^[s.sprites.length] (tabStep s)).selected = (Sids s).get? 0) := by
  have hidle : ∀ s : EState, s.selected = none → tabNextIndex s = 0 := by
    intro s hsel
    simp [tabNextIndex, hsel]
  refine ⟨?_, ?_, ?_, ?_⟩
  · intro s hs
    simp [tabStep, hs]
  · intro s hsel hn
    have hni := hidle s hsel
    have hlt : tabNextIndex s < s.sprites.length := by
      rw [hni]
      exact hn
    have hstep := tabStep_select s hn hlt
    rw [hstep.1, hni]
  · intro s p h hsel
    have hpmem : p ∈ Sids s := h.2.2.2.2.1 p (by simp [hsel])
    have hn : 0 < s.sprites.length := by
      have hne : Sids s ≠ [] := by
        intro hc
        rw [hc] at hpmem
        simp at hpmem
      have hlen : (Sids s).length = s.sprites.length := List.length_map _ _
      rcases Nat.eq_zero_or_pos s.sprites.length with hz | hp
      · exfalso
        apply hne
        rw [← List.length_eq_zero, hlen]
        exact hz
      · exact hp
    have hnext := tabNextIndex_selected s p hsel hpmem
    have hlt : tabNextIndex s < s.sprites.length := by
      rw [hnext]
      exact Nat.mod_lt _ hn
    have hstep := tabStep_select s hn hlt
    rw [hstep.1, hnext]
  · intro s h hsel hn
    have hni := hidle s hsel
    have hlt0 : tabNextIndex s < s.sprites.length := by
      rw [hni]
      exact hn
    obtain ⟨hsel1, hsids1⟩ := tabStep_select s hn hlt0
    have h1 : SelInv (tabStep s) := selinv_tabStep s h
    have hlen1 : (tabStep s).sprites.length = s.sprites.length := by
      have hcg := congrArg List.length hsids1
      simpa [Sids] using hcg
    have hsel1' : (tabStep s).selected = (Sids (tabStep s)).get? 0 := by
      rw [hsids1, hsel1, hni]
    have h0lt : (0 : Nat) < (tabStep s).sprites.length := by
      rw [hlen1]
      exact hn
    obtain ⟨-, gsids, glen, gsel⟩ :=
      tab_iterate (s.sprites.length) (tabStep s) h1 0 h0lt hsel1'
    rw [gsel, hsids1, hlen1, Nat.zero_add, Nat.mod_self]

/-- Witness for C7 at an empty state and at a concrete idle three-sprite
state. -/
theorem c7_tab_cycle_witness :
    tabStep sEmpty = sEmpty ∧
    (tabStep sThree).selected = (Sids sThree).get? 0 ∧
    (tabStep^[sThree.sprites.length] (tabStep sThree)).selected
      = (Sids sThree).get? 0 :=
  ⟨c7_tab_cycle.1 sEmpty rfl,
   c7_tab_cycle.2.1 sThree rfl (by decide),
   c7_tab_cycle.2.2.2 sThree (by decide) rfl (by decide)⟩
